import Mathlib

/-!
# incode-go: the SQLite adapter of `dbx`

A shallow embedding of `dbx/adapters/sqlite/extensions.go` and
`dbx/adapters/sqlite/sqlite.go`, with the properties of the storage-access
layer stated over it.

Conventions of the embedding:

* a Go `string` is a Lean `String` (valid UTF-8 text);
* a Go `error` is `Option GoError` (`none` is `nil`); `GoError` keeps the
  message and, for `fmt.Errorf` with `%w`, the wrapped cause;
* a run-time panic (nil dereference, `sql.Register` on a taken name) is the
  `panic` outcome of `Res`;
* library calls (`database/sql`, `sqlx`, `go-sqlite3`) are either given by
  their documented behaviour or taken as parameters of the handle.
-/

namespace Sqlite

/-! ## Errors and outcomes -/

/-- A Go error value: `leaf` is `errors.New` or `fmt.Errorf` without `%w`,
`wrap` is `fmt.Errorf` with `%w`, whose `Unwrap` gives back the cause. -/
inductive GoError where
  | leaf (msg : String)
  | wrap (msg : String) (cause : GoError)
  deriving DecidableEq, Repr

namespace GoError

/-- The `Error()` method: the message text. -/
def Error : GoError → String
  | leaf msg => msg
  | wrap msg _ => msg

/-- The `Unwrap()` method, as `errors.Unwrap` sees it. -/
def Unwrap : GoError → Option GoError
  | leaf _ => none
  | wrap _ cause => some cause

/-- The chain `errors.Is` walks: the error, then what it unwraps to, and so on. -/
def chain : GoError → List GoError
  | leaf msg => [leaf msg]
  | wrap msg cause => wrap msg cause :: chain cause

end GoError

/-- Models `errors.New(msg)`. -/
def errorsNew (msg : String) : GoError := GoError.leaf msg

/-- Models `fmt.Errorf(ctx + ": %w", err)`: message `ctx: <err>`, wrapping `err`. -/
def errorfW (ctx : String) (err : GoError) : GoError :=
  GoError.wrap (ctx ++ ": " ++ err.Error) err

/-- Models `fmt.Errorf(ctx + ": %v", err)`: message `ctx: <err>`, nothing wrapped. -/
def errorfV (ctx : String) (err : GoError) : GoError :=
  GoError.leaf (ctx ++ ": " ++ err.Error)

/-- Outcome of a call that may panic instead of returning. -/
inductive Res (α : Type) where
  | ok (val : α)
  | panic (msg : String)
  deriving DecidableEq, Repr

/-- The run-time message of a nil pointer dereference. -/
def nilDeref : String := "runtime error: invalid memory address or nil pointer dereference"

/-! ## `extensions.go`: `splitExtensions` -/

/-- Models `unicode.IsSpace`, the predicate `strings.TrimSpace` trims by. -/
def isSpace (c : Char) : Bool :=
  let n := c.toNat
  n == 0x09 || n == 0x0A || n == 0x0B || n == 0x0C || n == 0x0D || n == 0x20 ||
  n == 0x85 || n == 0xA0 || n == 0x1680 || (0x2000 ≤ n && n ≤ 0x200A) ||
  n == 0x2028 || n == 0x2029 || n == 0x202F || n == 0x205F || n == 0x3000

/-- Removes the leading, then the trailing characters that satisfy `p`. -/
def trimChars (p : Char → Bool) (l : List Char) : List Char :=
  (l.dropWhile p).rdropWhile p

/-- Models `strings.TrimSpace`. -/
def TrimSpace (s : String) : String :=
  String.mk (trimChars isSpace s.data)

/-- Models `strings.Split(s, sep)` for a one-character separator. -/
def Split (s : String) (sep : Char) : List String :=
  (s.data.splitOn sep).map String.mk

/-- The function `splitExtensions` of `extensions.go`. The index loop that
overwrites `extensions[i]` with its trimmed value is the `map`. -/
def splitExtensions (extensionList : String) : List String :=
  if extensionList ≠ "" then
    let extensions := Split extensionList ','
    extensions.map TrimSpace
  else
    []

/-- Specification side of trimming, in the words of the spec: `t` is `p` with
its surrounding white space removed. `p` is `t` between two runs of white
space, and `t` neither starts nor ends with white space. -/
def IsTrimOf (t p : String) : Prop :=
  (∃ a b : List Char, p.data = a ++ t.data ++ b ∧
      (∀ c ∈ a, isSpace c = true) ∧ (∀ c ∈ b, isSpace c = true)) ∧
  (∀ c, t.data.head? = some c → isSpace c = false) ∧
  (∀ c, t.data.getLast? = some c → isSpace c = false)

/-! ## `extensions.go`: the connection hook and `register` -/

/-- A `*sqlite3.SQLiteConn` as the hook sees it: the driver-side state and
the `LoadExtension(lib, entry)` calls made on it so far. -/
structure SQLiteConn (σ : Type) where
  state : σ
  calls : List (String × String)

/-- Models `conn.LoadExtension(lib, entry)`: the driver's loader `load` decides
the outcome and the next state; the call is recorded. -/
def SQLiteConn.LoadExtension {σ : Type} (load : σ → String → String → σ × Option GoError)
    (conn : SQLiteConn σ) (lib entry : String) : SQLiteConn σ × Option GoError :=
  ({ state := (load conn.state lib entry).1, calls := conn.calls ++ [(lib, entry)] },
    (load conn.state lib entry).2)

/-- The `ConnectHook` closure that `register` installs (lines 26-34). -/
def ConnectHook {σ : Type} (load : σ → String → String → σ × Option GoError) :
    List String → SQLiteConn σ → SQLiteConn σ × Option GoError
  | [], conn => (conn, none)
  | p :: rest, conn =>
    match SQLiteConn.LoadExtension load conn p "" with
    | (conn1, some err) => (conn1, some (errorfW ("LoadExtension(" ++ p ++ ")") err))
    | (conn1, none) => ConnectHook load rest conn1

/-- Every path of the list loads, one after the other, taking the driver
state from `s` to `s1`. -/
inductive LoadsAll {σ : Type} (load : σ → String → String → σ × Option GoError) :
    List String → σ → σ → Prop where
  | nil (s : σ) : LoadsAll load [] s s
  | cons (p : String) (rest : List String) (s s1 : σ)
      (hp : (load s p "").2 = none) (hrest : LoadsAll load rest (load s p "").1 s1) :
      LoadsAll load (p :: rest) s s1

/-- A call that leaves the layer, in the order made. -/
inductive Event where
  | sqlRegister (name : String) (extensionPaths : List String)
  | sqlxConnect (driverName dataSourceName : String)
  | dbPing
  | logPrintln (msg : String)
  deriving DecidableEq, Repr

/-- The `sqlite3.SQLiteDriver` value handed to `sql.Register`: its
`ConnectHook` is `ConnectHook` over these paths. -/
structure SQLiteDriver where
  extensionPaths : List String
  deriving DecidableEq, Repr

/-- The process-wide state: the driver table of `database/sql` and the calls
made so far. -/
structure Process where
  drivers : List (String × SQLiteDriver)
  trace : List Event
  deriving DecidableEq, Repr

/-- Models `sql.Register(name, driver)` of `database/sql`: it panics when the
name is taken, and adds the entry otherwise. -/
def sqlRegister (name : String) (driver : SQLiteDriver) (w : Process) : Process × Res Unit :=
  if (w.drivers.lookup name).isSome then
    ({ w with trace := w.trace ++ [Event.sqlRegister name driver.extensionPaths] },
      Res.panic ("sql: Register called twice for driver " ++ name))
  else
    ({ drivers := w.drivers ++ [(name, driver)],
       trace := w.trace ++ [Event.sqlRegister name driver.extensionPaths] }, Res.ok ())

/-- Models `sync.Once`. -/
structure Once where
  done : Bool
  deriving DecidableEq, Repr

/-- Models `once.Do(f)`: `f` runs unless this `Once` has run one before. -/
def Once.Do (once : Once) (f : Process → Process × Res Unit) (w : Process) :
    Once × Process × Res Unit :=
  if once.done then (once, w, Res.ok ())
  else ({ done := true }, (f w).1, (f w).2)

/-- The function `register` of `extensions.go`. `once` is the local variable
declared in the body, so each call starts with one that has not run. -/
def register (driverName : String) (extensionPaths : List String) (w : Process) :
    Process × Res (Option GoError) :=
  if extensionPaths.length = 0 then (w, Res.ok none)
  else
    let once : Once := { done := false }
    let regErr : Option GoError := none
    match once.Do (sqlRegister driverName { extensionPaths := extensionPaths }) w with
    | (_, w1, Res.ok _) => (w1, Res.ok regErr)
    | (_, w1, Res.panic msg) => (w1, Res.panic msg)

/-- The driver names `sql.Register` was called with, in order. -/
def registeredNames : List Event → List String
  | [] => []
  | Event.sqlRegister n _ :: rest => n :: registeredNames rest
  | _ :: rest => registeredNames rest

/-- The driver names `sqlx.Connect` was called with, in order. -/
def openedDrivers : List Event → List String
  | [] => []
  | Event.sqlxConnect d _ :: rest => d :: openedDrivers rest
  | _ :: rest => openedDrivers rest

/-- How many times `sql.Register` was called for `name`. -/
def registerCalls (name : String) (trace : List Event) : Nat :=
  (registeredNames trace).count name

/-! ## `sqlite.go`: the handle and its collaborators -/

/-- A value bound to a placeholder. -/
inductive Scalar where
  | null
  | int (n : Int)
  | str (s : String)
  deriving DecidableEq, Repr

/-- What a caller passes as `args any` or `dest any`, by dynamic type:
a `map[string]any`, a `[]any`, or something else. -/
inductive GoAny where
  | strMap (entries : List (String × Scalar))
  | slice (elems : List Scalar)
  | scalar (v : Scalar)
  deriving DecidableEq, Repr

/-- The struct `database.Configuration` of `configx/database/entity.go`. -/
structure Configuration where
  URL : String
  Driver : String
  Extensions : String
  deriving DecidableEq, Repr

/-- A `sql.Result`. -/
structure SqlResult where
  lastInsertId : Int
  rowsAffected : Int
  deriving DecidableEq, Repr

/-- A row cursor `*sqlx.Rows`, as the rows it will yield. -/
abbrev Rows := List (List Scalar)

/-- Behaviour of a `*sqlx.NamedStmt`: the outcome of `stmt.Get(dest, args)`. -/
structure NamedStmt where
  Get : GoAny → GoAny → Option GoError

/-- Behaviour of a live `*sqlx.Tx`, one field per method the layer calls. -/
structure Tx where
  Rebind : String → String
  PrepareNamed : String → Except GoError NamedStmt
  NamedExec : String → GoAny → Except GoError SqlResult
  NamedQuery : String → GoAny → Except GoError Rows
  Commit : Option GoError
  Rollback : Option GoError

/-- Behaviour of a live `*sqlx.DB`, one field per method the layer calls. -/
structure DB where
  Ping : Option GoError
  Close : Option GoError
  DriverName : String
  Rebind : String → String
  PrepareNamed : String → Except GoError NamedStmt
  NamedExec : String → GoAny → Except GoError SqlResult
  NamedQuery : String → GoAny → Except GoError Rows
  Select : GoAny → String → List Scalar → Option GoError
  Beginx : Except GoError Tx

/-- The package-level functions of `sqlx` used by `Select`, and `sqlx.Connect`,
whose outcome may depend on the drivers registered so far. -/
structure Sqlx where
  Connect : List (String × SQLiteDriver) → String → String → Except GoError DB
  Named : String → List (String × Scalar) → Except GoError (String × List Scalar)
  BindType : String → Nat
  Rebind : Nat → String → String

/-- The constant `errMsgNotConnected`. -/
def errMsgNotConnected : String := "datastore is not connected"

/-- The struct `connection`; `db` is a pointer and may be nil. -/
structure connection where
  db : Option DB

/-- The struct `transaction`; `tx` is a pointer and may be nil. -/
structure transaction where
  tx : Option Tx

/-! ## `sqlite.go`: `NewConnection` -/

/-- Lines 45-56 of `NewConnection`: connect with the chosen driver, ping, log. -/
def NewConnection.connect (sqlx : Sqlx) (driver databaseUrl : String) (w : Process) :
    Process × Res (Option connection × Option GoError) :=
  let w1 : Process := { w with trace := w.trace ++ [Event.sqlxConnect driver databaseUrl] }
  match sqlx.Connect w.drivers driver databaseUrl with
  | Except.error err =>
    (w1, Res.ok (none, some (errorfV "unable to connect to datastore" err)))
  | Except.ok dbc =>
    let w2 : Process := { w1 with trace := w1.trace ++ [Event.dbPing] }
    match dbc.Ping with
    | some err =>
      (w2, Res.ok (none, some (errorfW "failed to ping database after connecting" err)))
    | none =>
      ({ w2 with trace := w2.trace ++ [Event.logPrintln "Datastore is connected!"] },
        Res.ok (some { db := some dbc }, none))

/-- The function `NewConnection` of `sqlite.go`. The result is the pair
`(dbx.Connection, error)`; `none` is nil. -/
def NewConnection (sqlx : Sqlx) (config : Configuration) (w : Process) :
    Process × Res (Option connection × Option GoError) :=
  let databaseUrl := config.URL
  if databaseUrl = "" then
    (w, Res.ok (none, some (errorsNew "datastore url is not set in the configuration")))
  else
    let driver := config.Driver
    if driver = "" then
      (w, Res.ok (none, some (errorsNew "datastore driver is not set in the configuration")))
    else if config.Extensions ≠ "" then
      let driver := "sqlite3_extended"
      let extensions := splitExtensions config.Extensions
      match register driver extensions w with
      | (w1, Res.ok (some err)) =>
        (w1, Res.ok (none, some (errorfW "register sqlite extensions driver" err)))
      | (w1, Res.panic msg) => (w1, Res.panic msg)
      | (w1, Res.ok none) => NewConnection.connect sqlx driver databaseUrl w1
    else
      NewConnection.connect sqlx driver databaseUrl w

/-! ## `sqlite.go`: the methods of `connection` -/

/-- The method `Ping`: `c.db.Ping()`, with no check of `c` or `c.db`. -/
def connection.Ping (c : Option connection) : Res (Option GoError) :=
  match c with
  | none => Res.panic nilDeref
  | some conn =>
    match conn.db with
    | none => Res.panic nilDeref
    | some db => Res.ok db.Ping

/-- The method `Close`: `c.db.Close()`, with no check of `c` or `c.db`. -/
def connection.Close (c : Option connection) : Res (Option GoError) :=
  match c with
  | none => Res.panic nilDeref
  | some conn =>
    match conn.db with
    | none => Res.panic nilDeref
    | some db => Res.ok db.Close

/-- The method `Execute`. -/
def connection.Execute (c : Option connection) (query : String) (args : GoAny) :
    Res (Option SqlResult × Option GoError) :=
  match c with
  | none => Res.ok (none, some (errorsNew errMsgNotConnected))
  | some conn =>
    match conn.db with
    | none => Res.ok (none, some (errorsNew errMsgNotConnected))
    | some db =>
      match db.NamedExec query args with
      | Except.ok r => Res.ok (some r, none)
      | Except.error err => Res.ok (none, some err)

/-- The method `Query`. -/
def connection.Query (c : Option connection) (query : String) (args : GoAny) :
    Res (Option Rows × Option GoError) :=
  match c with
  | none => Res.ok (none, some (errorsNew errMsgNotConnected))
  | some conn =>
    match conn.db with
    | none => Res.ok (none, some (errorsNew errMsgNotConnected))
    | some db =>
      match db.NamedQuery query args with
      | Except.ok r => Res.ok (some r, none)
      | Except.error err => Res.ok (none, some err)

/-- The method `Get` of `connection`. -/
def connection.Get (c : Option connection) (dest : GoAny) (query : String) (args : GoAny) :
    Res (Option GoError) :=
  match c with
  | none => Res.ok (some (errorsNew errMsgNotConnected))
  | some conn =>
    match conn.db with
    | none => Res.ok (some (errorsNew errMsgNotConnected))
    | some db =>
      let query := db.Rebind query
      match db.PrepareNamed query with
      | Except.error err => Res.ok (some (errorfW "failed to prepare named statement" err))
      | Except.ok stmt =>
        match stmt.Get dest args with
        | some err => Res.ok (some (errorfW "failed to execute get statement" err))
        | none => Res.ok none

/-- The method `BeginTx`: `c.db.Beginx()`, with no check of `c` or `c.db`. -/
def connection.BeginTx (c : Option connection) : Res (Option transaction × Option GoError) :=
  match c with
  | none => Res.panic nilDeref
  | some conn =>
    match conn.db with
    | none => Res.panic nilDeref
    | some db =>
      match db.Beginx with
      | Except.error err => Res.ok (none, some err)
      | Except.ok tx => Res.ok (some { tx := some tx }, none)

/-- The method `Select`. When `args` is not a `map[string]any` the last line
is `c.db.Select(dest, query)`: no argument follows the query. -/
def connection.Select (sqlx : Sqlx) (c : Option connection) (dest : GoAny) (query : String)
    (args : GoAny) : Res (Option GoError) :=
  match c with
  | none => Res.ok (some (errorsNew errMsgNotConnected))
  | some conn =>
    match conn.db with
    | none => Res.ok (some (errorsNew errMsgNotConnected))
    | some db =>
      let query := db.Rebind query
      match args with
      | GoAny.strMap argsMap =>
        match sqlx.Named query argsMap with
        | Except.error err => Res.ok (some err)
        | Except.ok (query, boundArgs) =>
          let query := sqlx.Rebind (sqlx.BindType db.DriverName) query
          Res.ok (db.Select dest query boundArgs)
      | _ => Res.ok (db.Select dest query [])

/-! ## `sqlite.go`: the methods of `transaction` -/

/-- The method `Get` of `transaction`: both errors are returned as they come. -/
def transaction.Get (t : Option transaction) (dest : GoAny) (query : String) (args : GoAny) :
    Res (Option GoError) :=
  match t with
  | none => Res.panic nilDeref
  | some txn =>
    match txn.tx with
    | none => Res.panic nilDeref
    | some tx =>
      let query := tx.Rebind query
      match tx.PrepareNamed query with
      | Except.error err => Res.ok (some err)
      | Except.ok stmt => Res.ok (stmt.Get dest args)

/-! ## Sample collaborators -/

/-- The driver error `sql.ErrNoRows`. -/
def ErrNoRows : GoError := errorsNew "sql: no rows in result set"

/-- A statement whose single-row get finds no row. -/
def sampleStmt : NamedStmt := { Get := fun _ _ => some ErrNoRows }

/-- A transaction handle: statements prepare, and find no row. -/
def sampleTx : Tx :=
  { Rebind := fun q => q
    PrepareNamed := fun _ => Except.ok sampleStmt
    NamedExec := fun _ _ => Except.ok { lastInsertId := 0, rowsAffected := 0 }
    NamedQuery := fun _ _ => Except.ok []
    Commit := none
    Rollback := none }

/-- A healthy handle. Its `Select` wants one argument for the one placeholder
of the query it is given, and reports how many it got otherwise. -/
def sampleDB : DB :=
  { Ping := none
    Close := none
    DriverName := "sqlite3"
    Rebind := fun q => q
    PrepareNamed := fun _ => Except.ok sampleStmt
    NamedExec := fun _ _ => Except.ok { lastInsertId := 0, rowsAffected := 0 }
    NamedQuery := fun _ _ => Except.ok []
    Select := fun _ _ args =>
      if args.length = 1 then none
      else some (errorsNew ("sql: expected 1 arguments, got " ++ toString args.length))
    Beginx := Except.ok sampleTx }

/-- A handle that opens but does not answer the ping. -/
def unhealthyDB : DB := { sampleDB with Ping := some (errorsNew "database is locked") }

/-- An `sqlx` whose `Connect` succeeds with `sampleDB`. -/
def sampleSqlx : Sqlx :=
  { Connect := fun _ _ _ => Except.ok sampleDB
    Named := fun q m => Except.ok (q, m.map Prod.snd)
    BindType := fun _ => 1
    Rebind := fun _ q => q }

/-- An `sqlx` whose `Connect` fails. -/
def failingSqlx : Sqlx :=
  { sampleSqlx with Connect := fun _ _ _ => Except.error (errorsNew "unable to open database file") }

/-- An `sqlx` whose `Connect` succeeds with a handle that fails the ping. -/
def unhealthySqlx : Sqlx := { sampleSqlx with Connect := fun _ _ _ => Except.ok unhealthyDB }

/-- A process in which only the base driver `sqlite3` is registered. -/
def freshProcess : Process := { drivers := [("sqlite3", { extensionPaths := [] })], trace := [] }

/-- A loader without state that refuses exactly the path `e2`. -/
def sampleLoad : Unit → String → String → Unit × Option GoError :=
  fun _ lib _ => if lib = "e2" then ((), some (errorsNew "not an extension")) else ((), none)

/-! ## Lemmas on splitting and trimming -/

/-- No piece of a split contains the separator. -/
theorem not_mem_of_mem_splitOn (x : Char) (xs : List Char) :
    ∀ l ∈ xs.splitOn x, x ∉ l := by
  induction xs with
  | nil => intro l hl; simp [List.splitOn, List.splitOnP, List.splitOnP.go] at hl; simp [hl]
  | cons hd tl ih =>
    intro l hl
    simp only [List.splitOn] at ih hl
    rw [List.splitOnP_cons] at hl
    by_cases h : (hd == x) = true
    · rw [if_pos h] at hl
      rcases List.mem_cons.mp hl with h1 | h1
      · simp [h1]
      · exact ih l h1
    · rw [if_neg h] at hl
      cases hr : List.splitOnP (fun c => c == x) tl with
      | nil => rw [hr] at hl; simp at hl
      | cons r rs =>
        rw [hr] at hl ih
        simp only [List.modifyHead_cons] at hl
        rcases List.mem_cons.mp hl with h1 | h1
        · subst h1
          intro hx
          rcases List.mem_cons.mp hx with h2 | h2
          · exact h (by simp [h2])
          · exact ih r (List.mem_cons_self _ _) h2
        · exact ih l (List.mem_cons_of_mem _ h1)

/-- Trimming only removes characters. -/
theorem trimChars_sublist (p : Char → Bool) (l : List Char) : (trimChars p l).Sublist l :=
  (List.rdropWhile_prefix p (l.dropWhile p)).sublist.trans (List.dropWhile_suffix p).sublist

/-- A trimmed list does not start with a trimmed character. -/
theorem head?_trimChars (p : Char → Bool) (l : List Char) (c : Char)
    (h : (trimChars p l).head? = some c) : p c = false := by
  unfold trimChars at h
  obtain ⟨t, ht⟩ := List.rdropWhile_prefix p (l.dropWhile p)
  have h2 : (l.dropWhile p).head? = some c := by
    rw [← ht]
    cases hr : List.rdropWhile p (List.dropWhile p l) with
    | nil => rw [hr] at h; simp at h
    | cons a as => rw [hr] at h; simpa using h
  have h3 := List.head?_dropWhile_not p l
  rw [h2] at h3
  simpa using h3

/-- A trimmed list does not end with a trimmed character. -/
theorem getLast?_trimChars (p : Char → Bool) (l : List Char) (c : Char)
    (h : (trimChars p l).getLast? = some c) : p c = false := by
  unfold trimChars at h
  have hne : List.rdropWhile p (List.dropWhile p l) ≠ [] := by
    intro h0; rw [h0] at h; simp at h
  have h1 := List.rdropWhile_last_not p (List.dropWhile p l) hne
  rw [List.getLast?_eq_getLast _ hne] at h
  simp only [Option.some.injEq] at h
  rw [h] at h1
  simpa using h1

/-- Trimming a trimmed list changes nothing. -/
theorem trimChars_idem (p : Char → Bool) (l : List Char) :
    trimChars p (trimChars p l) = trimChars p l := by
  have h1 : (trimChars p l).dropWhile p = trimChars p l := by
    cases ht : trimChars p l with
    | nil => rfl
    | cons a as =>
      have := head?_trimChars p l a (by rw [ht]; rfl)
      simp [List.dropWhile, this]
  show List.rdropWhile p ((trimChars p l).dropWhile p) = trimChars p l
  rw [h1]
  exact List.rdropWhile_idempotent p _

/-- A list is what is left of it after dropping its trailing run, then that run. -/
theorem rdropWhile_append_rtakeWhile (p : Char → Bool) (l : List Char) :
    l.rdropWhile p ++ l.rtakeWhile p = l := by
  simp only [List.rdropWhile, List.rtakeWhile]
  rw [← List.reverse_append, List.takeWhile_append_dropWhile, List.reverse_reverse]

/-- A list is its trimmed form between two runs of trimmed characters. -/
theorem trimChars_decomp (p : Char → Bool) (l : List Char) :
    ∃ a b, l = a ++ trimChars p l ++ b ∧ (∀ c ∈ a, p c = true) ∧ (∀ c ∈ b, p c = true) := by
  refine ⟨l.takeWhile p, (l.dropWhile p).rtakeWhile p, ?_, ?_, ?_⟩
  · unfold trimChars
    rw [List.append_assoc, rdropWhile_append_rtakeWhile, List.takeWhile_append_dropWhile]
  · intro c hc; exact List.mem_takeWhile_imp hc
  · intro c hc; exact List.mem_rtakeWhile_imp hc

/-- The characters of a joined string are the joined character lists. -/
theorem data_intercalate (sep : String) (l : List String) :
    (String.intercalate sep l).data = List.intercalate sep.data (l.map String.data) := by
  have go : ∀ (as : List String) (acc : String),
      (String.intercalate.go acc sep as).data
        = acc.data ++ (as.map (fun a => sep.data ++ a.data)).flatten := by
    intro as
    induction as with
    | nil => intro acc; simp [String.intercalate.go]
    | cons a as ih => intro acc; simp [String.intercalate.go, ih, String.data_append]
  cases l with
  | nil => rfl
  | cons a as =>
    simp only [String.intercalate, go, List.intercalate, List.map_cons]
    clear go
    induction as generalizing a with
    | nil => simp
    | cons b bs ih =>
      simp only [List.map_cons, List.intersperse_cons_cons, List.flatten_cons] at ih ⊢
      rw [← ih b]
      simp


/-- The value of `TrimSpace` meets the specification of trimming. -/
theorem isTrimOf_TrimSpace (p : String) : IsTrimOf (TrimSpace p) p :=
  ⟨trimChars_decomp isSpace p.data, head?_trimChars isSpace p.data,
    getLast?_trimChars isSpace p.data⟩

/-- Joining the pieces of a split with the separator gives the string back. -/
theorem intercalate_Split (s : String) : String.intercalate "," (Split s ',') = s := by
  apply String.ext
  rw [data_intercalate]
  simp only [Split, List.map_map]
  have : (String.data ∘ String.mk) = id := by funext l; rfl
  rw [this, List.map_id]
  exact List.intercalate_splitOn s.data ','

/-- The value of `splitExtensions` on a non-empty string, on character lists. -/
theorem splitExtensions_of_ne (s : String) (h : s ≠ "") :
    splitExtensions s = (s.data.splitOn ',').map (fun l => String.mk (trimChars isSpace l)) := by
  simp [splitExtensions, h, Split, TrimSpace, List.map_map, Function.comp_def]

/-- A comma join is empty only for no piece or the single empty piece. -/
theorem intercalate_ne_nil (L : List (List Char)) (h0 : L ≠ []) (h1 : L ≠ [[]]) :
    List.intercalate [','] L ≠ [] := by
  match L, h0, h1 with
  | [a], _, h1 =>
    have : a ≠ [] := by intro h; exact h1 (by rw [h])
    simpa [List.intercalate] using this
  | a :: b :: rest, _, _ => simp [List.intercalate]

/-! ## `splitExtensions` -/

/-- C7: `splitExtensions` returns the empty sequence for the empty string; for
any other string it returns, in order, the trimmed forms of the pieces between
the commas: there are comma-free pieces that join with commas to the input, and
each result is its piece with the surrounding white space removed. The
string " a , b ,c " yields a, b, c. -/
theorem splitExtensions_pieces (s : String) :
    (s = "" → splitExtensions s = []) ∧
    (s ≠ "" → ∃ pieces : List String,
        String.intercalate "," pieces = s ∧ (∀ p ∈ pieces, ',' ∉ p.data) ∧
        List.Forall₂ IsTrimOf (splitExtensions s) pieces) ∧
    splitExtensions " a , b ,c " = ["a", "b", "c"] := by
  refine ⟨?_, ?_, by decide⟩
  · intro h; subst h; rfl
  · intro h
    refine ⟨Split s ',', intercalate_Split s, ?_, ?_⟩
    · intro p hp
      simp only [Split, List.mem_map] at hp
      obtain ⟨l, hl, rfl⟩ := hp
      exact not_mem_of_mem_splitOn ',' s.data l hl
    · simp only [splitExtensions, h, ne_eq, not_false_eq_true, if_true]
      rw [List.forall₂_map_left_iff]
      exact List.forall₂_same.mpr (fun p _ => isTrimOf_TrimSpace p)


/-- Witness of C7 at the string "x, y". -/
theorem splitExtensions_pieces_witness :
    ("x, y" ≠ "") ∧
    ∃ pieces : List String,
        String.intercalate "," pieces = "x, y" ∧ (∀ p ∈ pieces, ',' ∉ p.data) ∧
        List.Forall₂ IsTrimOf (splitExtensions "x, y") pieces :=
  ⟨by decide, (splitExtensions_pieces "x, y").2.1 (by decide)⟩

/-- C8, as stated, fails: the one-blank string splits to the single empty
entry, whose join is the empty string, which splits to no entry at all. -/
theorem splitExtensions_join_blank :
    splitExtensions " " = [""] ∧
    splitExtensions (String.intercalate "," (splitExtensions " ")) = [] ∧
    splitExtensions (String.intercalate "," (splitExtensions " ")) ≠ splitExtensions " " := by
  decide

/-- C8, amended: joining `splitExtensions s` with commas and splitting again
gives `splitExtensions s` back exactly when `splitExtensions s` is not the
single empty entry, that is unless `s` is non-empty, comma-free white space. -/
theorem splitExtensions_join_iff (s : String) :
    splitExtensions (String.intercalate "," (splitExtensions s)) = splitExtensions s ↔
      splitExtensions s ≠ [""] := by
  by_cases hs : s = ""
  · subst hs; decide
  · constructor
    · intro h h1
      rw [h1] at h
      exact absurd h (by decide)
    · intro h1
      rw [splitExtensions_of_ne s hs] at h1 ⊢
      set L := (s.data.splitOn ',').map (trimChars isSpace) with hL
      have hT : (s.data.splitOn ',').map (fun l => String.mk (trimChars isSpace l))
          = L.map String.mk := by simp [hL, List.map_map, Function.comp_def]
      rw [hT] at h1 ⊢
      have hne : L ≠ [] := by
        simp only [hL, ne_eq, List.map_eq_nil_iff]
        exact List.splitOnP_ne_nil _ _
      have hne1 : L ≠ [[]] := by
        intro h; apply h1; rw [h]; rfl
      have hcomma : ∀ l ∈ L, ',' ∉ l := by
        intro l hl
        simp only [hL, List.mem_map] at hl
        obtain ⟨m, hm, rfl⟩ := hl
        intro hc
        exact not_mem_of_mem_splitOn ',' s.data m hm ((trimChars_sublist isSpace m).subset hc)
      have hdata : (String.intercalate "," (L.map String.mk)).data = List.intercalate [','] L := by
        rw [data_intercalate, List.map_map]
        have : (String.data ∘ String.mk) = id := by funext l; rfl
        rw [this, List.map_id]
      have hJ : String.intercalate "," (L.map String.mk) ≠ "" := by
        intro h
        have := congrArg String.data h
        rw [hdata] at this
        exact intercalate_ne_nil L hne hne1 this
      rw [splitExtensions_of_ne _ hJ, hdata, List.splitOn_intercalate L ',' hcomma hne]
      simp only [hL, List.map_map]
      apply List.map_congr_left
      intro l _
      simp [Function.comp_def, trimChars_idem]


/-- Witness of C8 amended at the string " a , b ,c ". -/
theorem splitExtensions_join_iff_witness :
    splitExtensions " a , b ,c " ≠ [""] ∧
    splitExtensions (String.intercalate "," (splitExtensions " a , b ,c ")) =
      splitExtensions " a , b ,c " :=
  ⟨by decide, (splitExtensions_join_iff " a , b ,c ").mpr (by decide)⟩

/-! ## The connection hook -/

/-- One step of the hook loop. -/
theorem ConnectHook_cons {σ : Type} (load : σ → String → String → σ × Option GoError)
    (p : String) (rest : List String) (conn : SQLiteConn σ) :
    ConnectHook load (p :: rest) conn =
      match (load conn.state p "").2 with
      | some err =>
        ({ state := (load conn.state p "").1, calls := conn.calls ++ [(p, "")] },
          some (errorfW ("LoadExtension(" ++ p ++ ")") err))
      | none =>
        ConnectHook load rest
          { state := (load conn.state p "").1, calls := conn.calls ++ [(p, "")] } := by
  simp only [ConnectHook, SQLiteConn.LoadExtension]
  cases (load conn.state p "").2 <;> rfl

/-- When the hook returns nil every path loaded, and every path was asked for in order. -/
theorem ConnectHook_ok {σ : Type} (load : σ → String → String → σ × Option GoError)
    (paths : List String) (conn : SQLiteConn σ)
    (h : (ConnectHook load paths conn).2 = none) :
    LoadsAll load paths conn.state (ConnectHook load paths conn).1.state ∧
    (ConnectHook load paths conn).1.calls = conn.calls ++ paths.map (fun p => (p, "")) := by
  induction paths generalizing conn with
  | nil => exact ⟨LoadsAll.nil _, by simp [ConnectHook]⟩
  | cons p rest ih =>
    rw [ConnectHook_cons] at h ⊢
    cases hp : (load conn.state p "").2 with
    | some err => rw [hp] at h; simp at h
    | none =>
      rw [hp] at h
      simp only at h ⊢
      obtain ⟨h1, h2⟩ := ih _ h
      exact ⟨LoadsAll.cons p rest _ _ hp h1, by rw [h2]; simp⟩

/-- When every path loads the hook returns nil. -/
theorem ConnectHook_of_loadsAll {σ : Type} (load : σ → String → String → σ × Option GoError)
    (paths : List String) (conn : SQLiteConn σ) (s1 : σ)
    (h : LoadsAll load paths conn.state s1) : (ConnectHook load paths conn).2 = none := by
  induction paths generalizing conn with
  | nil => rfl
  | cons p rest ih =>
    cases h with
    | cons _ _ _ _ hp hrest =>
      rw [ConnectHook_cons, hp]
      exact ih { state := (load conn.state p "").1, calls := conn.calls ++ [(p, "")] } hrest

/-- When the hook fails, it failed at the first path that does not load. -/
theorem ConnectHook_fail {σ : Type} (load : σ → String → String → σ × Option GoError)
    (paths : List String) (conn : SQLiteConn σ) (err : GoError)
    (h : (ConnectHook load paths conn).2 = some err) :
    ∃ (pre : List String) (p : String) (post : List String) (s1 : σ) (e : GoError),
      paths = pre ++ p :: post ∧ LoadsAll load pre conn.state s1 ∧
      (load s1 p "").2 = some e ∧
      err = errorfW ("LoadExtension(" ++ p ++ ")") e ∧
      (ConnectHook load paths conn).1.calls =
        conn.calls ++ (pre ++ [p]).map (fun q => (q, "")) := by
  induction paths generalizing conn with
  | nil => simp [ConnectHook] at h
  | cons p rest ih =>
    rw [ConnectHook_cons] at h ⊢
    cases hp : (load conn.state p "").2 with
    | some e =>
      rw [hp] at h
      simp only [Option.some.injEq] at h
      exact ⟨[], p, rest, conn.state, e, rfl, LoadsAll.nil _, hp, h.symm, by simp⟩
    | none =>
      rw [hp] at h
      simp only at h ⊢
      obtain ⟨pre, q, post, s1, e, h1, h2, h3, h4, h5⟩ := ih _ h
      refine ⟨p :: pre, q, post, s1, e, by rw [h1]; rfl, LoadsAll.cons p pre _ _ hp h2, h3, h4, ?_⟩
      rw [h5]; simp

/-- Text and cause of the error the hook builds. -/
theorem errorfW_LoadExtension (p : String) (e : GoError) :
    (errorfW ("LoadExtension(" ++ p ++ ")") e).Error = "LoadExtension(" ++ p ++ "): " ++ e.Error ∧
    (errorfW ("LoadExtension(" ++ p ++ ")") e).Unwrap = some e := by
  refine ⟨?_, rfl⟩
  simp only [errorfW, GoError.Error, String.append_assoc]
  rfl

/-- C5: the connection hook loads the paths in list order and stops at the
first one that fails. It returns nil exactly when every path loads, and then
it has called the loader on every path, in order, with the empty entry point.
Otherwise the list is `pre ++ p :: post` where every path of `pre` loaded and
`p` failed with `e`; the error returned has the text `LoadExtension(p): e`,
unwraps to `e`, and the loader was called on `pre` and `p` only. -/
theorem ConnectHook_stops_at_first_failure {σ : Type}
    (load : σ → String → String → σ × Option GoError)
    (extensionPaths : List String) (conn : SQLiteConn σ) :
    ((ConnectHook load extensionPaths conn).2 = none ↔
      ∃ s1, LoadsAll load extensionPaths conn.state s1) ∧
    ((ConnectHook load extensionPaths conn).2 = none →
      (ConnectHook load extensionPaths conn).1.calls =
        conn.calls ++ extensionPaths.map (fun p => (p, ""))) ∧
    (∀ err, (ConnectHook load extensionPaths conn).2 = some err →
      ∃ (pre : List String) (p : String) (post : List String) (s1 : σ) (e : GoError),
        extensionPaths = pre ++ p :: post ∧ LoadsAll load pre conn.state s1 ∧
        (load s1 p "").2 = some e ∧
        err.Error = "LoadExtension(" ++ p ++ "): " ++ e.Error ∧ err.Unwrap = some e ∧
        (ConnectHook load extensionPaths conn).1.calls =
          conn.calls ++ (pre ++ [p]).map (fun q => (q, ""))) := by
  refine ⟨⟨fun h => ⟨_, (ConnectHook_ok load extensionPaths conn h).1⟩,
    fun ⟨s1, h⟩ => ConnectHook_of_loadsAll load extensionPaths conn s1 h⟩,
    fun h => (ConnectHook_ok load extensionPaths conn h).2, ?_⟩
  intro err h
  obtain ⟨pre, p, post, s1, e, h1, h2, h3, h4, h5⟩ := ConnectHook_fail load extensionPaths conn err h
  refine ⟨pre, p, post, s1, e, h1, h2, h3, ?_, ?_, h5⟩
  · rw [h4]; exact (errorfW_LoadExtension p e).1
  · rw [h4]; exact (errorfW_LoadExtension p e).2

/-- Witness of C5: with the paths e1, e2, e3 and a loader that refuses e2, the
hook fails, and the failing path is e2 after e1 alone. -/
theorem ConnectHook_stops_at_first_failure_witness :
    (ConnectHook sampleLoad ["e1", "e2", "e3"] { state := (), calls := [] }).2 =
      some (errorfW "LoadExtension(e2)" (errorsNew "not an extension")) ∧
    ∃ (pre : List String) (p : String) (post : List String) (s1 : Unit) (e : GoError),
      ["e1", "e2", "e3"] = pre ++ p :: post ∧ LoadsAll sampleLoad pre () s1 ∧
      (sampleLoad s1 p "").2 = some e ∧
      (errorfW "LoadExtension(e2)" (errorsNew "not an extension")).Error =
        "LoadExtension(" ++ p ++ "): " ++ e.Error ∧
      (errorfW "LoadExtension(e2)" (errorsNew "not an extension")).Unwrap = some e ∧
      (ConnectHook sampleLoad ["e1", "e2", "e3"] { state := (), calls := [] }).1.calls =
        [] ++ (pre ++ [p]).map (fun q => (q, "")) :=
  ⟨by decide,
    (ConnectHook_stops_at_first_failure sampleLoad ["e1", "e2", "e3"]
      { state := (), calls := [] }).2.2 _ (by decide)⟩

/-! ## `register` -/

/-- Each call of `register` with a non-empty list calls `sql.Register`: the
count of such calls for the name goes up by one, whatever went before. -/
theorem register_calls_sqlRegister (driverName : String) (extensionPaths : List String)
    (w : Process) (h : extensionPaths ≠ []) :
    (register driverName extensionPaths w).1.trace =
      w.trace ++ [Event.sqlRegister driverName extensionPaths] := by
  have hlen : ¬ extensionPaths.length = 0 := by
    intro h0; exact h (List.length_eq_zero.mp h0)
  simp only [register, hlen, if_false, Once.Do, sqlRegister]
  by_cases hd : (List.lookup driverName w.drivers).isSome = true
  · simp [hd]
  · simp [hd]

/-- C1, on the code: two calls of `register` with the same name and a non-empty
list call `sql.Register` twice. In a process where the name is free the first
call returns nil and adds the driver; the second call reaches `sql.Register`
again, which panics on the taken name. -/
theorem register_twice_calls_sqlRegister_twice :
    (register "sqlite3_extended" ["uuid.so"] freshProcess).2 = Res.ok none ∧
    (register "sqlite3_extended" ["uuid.so"]
        (register "sqlite3_extended" ["uuid.so"] freshProcess).1).2 =
      Res.panic "sql: Register called twice for driver sqlite3_extended" ∧
    registerCalls "sqlite3_extended"
      (register "sqlite3_extended" ["uuid.so"]
        (register "sqlite3_extended" ["uuid.so"] freshProcess).1).1.trace = 2 := by
  decide

/-! ## `NewConnection` -/

/-- C2: when the URL or the driver of the configuration is empty,
`NewConnection` returns a nil connection and a non-nil error, one of the two
configuration errors, and leaves the process as it found it: no driver is
registered and no register, connect or ping call is made, whatever the
`Extensions` field holds. -/
theorem NewConnection_config_error (sqlx : Sqlx) (config : Configuration) (w : Process)
    (h : config.URL = "" ∨ config.Driver = "") :
    ∃ err : GoError,
      NewConnection sqlx config w = (w, Res.ok (none, some err)) ∧
      (err = errorsNew "datastore url is not set in the configuration" ∨
        err = errorsNew "datastore driver is not set in the configuration") := by
  by_cases hu : config.URL = ""
  · exact ⟨_, by simp [NewConnection, hu], Or.inl rfl⟩
  · have hd : config.Driver = "" := h.resolve_left hu
    exact ⟨_, by simp [NewConnection, hu, hd], Or.inr rfl⟩

/-- Witness of C2: an empty URL, with a driver and an extension list set. -/
theorem NewConnection_config_error_witness :
    ∃ err : GoError,
      NewConnection sampleSqlx { URL := "", Driver := "sqlite3", Extensions := "uuid.so" }
        freshProcess = (freshProcess, Res.ok (none, some err)) ∧
      (err = errorsNew "datastore url is not set in the configuration" ∨
        err = errorsNew "datastore driver is not set in the configuration") :=
  NewConnection_config_error sampleSqlx { URL := "", Driver := "sqlite3", Extensions := "uuid.so" }
    freshProcess (Or.inl rfl)

/-- The calls of the connect step: one `sqlx.Connect`, then no register and no further connect. -/
theorem NewConnection_connect_trace (sqlx : Sqlx) (driver databaseUrl : String) (w : Process) :
    ∃ rest : List Event,
      (NewConnection.connect sqlx driver databaseUrl w).1.trace =
        w.trace ++ Event.sqlxConnect driver databaseUrl :: rest ∧
      registeredNames rest = [] ∧ openedDrivers rest = [] := by
  unfold NewConnection.connect
  cases sqlx.Connect w.drivers driver databaseUrl with
  | error err => exact ⟨[], by simp, rfl, rfl⟩
  | ok dbc =>
    cases hp : dbc.Ping with
    | some err => exact ⟨[Event.dbPing], by simp [hp], rfl, rfl⟩
    | none =>
      exact ⟨[Event.dbPing, Event.logPrintln "Datastore is connected!"], by simp [hp], rfl, rfl⟩

/-- A non-empty extension string splits to at least one entry. -/
theorem splitExtensions_ne_nil (s : String) (h : s ≠ "") : splitExtensions s ≠ [] := by
  rw [splitExtensions_of_ne s h]
  simp only [ne_eq, List.map_eq_nil_iff]
  exact List.splitOnP_ne_nil _ _

/-- C6, as stated, fails. With the driver `mysql` and an extension list the
name registered and opened is `sqlite3_extended`, which is not `mysql` followed
by any suffix; with the driver `sqlite3_extended` the name opened is the
configured name itself. -/
theorem NewConnection_driver_not_base_plus_suffix :
    (registeredNames (NewConnection sampleSqlx
        { URL := "file:test.db", Driver := "mysql", Extensions := "uuid.so" }
        freshProcess).1.trace = ["sqlite3_extended"] ∧
      openedDrivers (NewConnection sampleSqlx
        { URL := "file:test.db", Driver := "mysql", Extensions := "uuid.so" }
        freshProcess).1.trace = ["sqlite3_extended"] ∧
      ∀ suffix : String, "mysql" ++ suffix ≠ "sqlite3_extended") ∧
    openedDrivers (NewConnection sampleSqlx
        { URL := "file:test.db", Driver := "sqlite3_extended", Extensions := "uuid.so" }
        freshProcess).1.trace = ["sqlite3_extended"] := by
  refine ⟨⟨by decide, by decide, ?_⟩, by decide⟩
  intro suffix h
  have h1 := congrArg String.data h
  rw [String.data_append] at h1
  exact absurd h1 (by simp)

/-- C6, amended: for a configuration with non-empty URL, Driver and Extensions,
in a process where `sqlite3_extended` is not yet registered, `NewConnection`
registers and opens with the fixed name `sqlite3_extended`, with the split
extension list; that name is `config.Driver` followed by `_extended` exactly
when `config.Driver` is `sqlite3`, and differs from `config.Driver` unless
`config.Driver` is `sqlite3_extended` itself. For a configuration with
non-empty URL and Driver and empty Extensions it opens with `config.Driver`
and makes no register call. -/
theorem NewConnection_driver_name (sqlx : Sqlx) (config : Configuration) (w : Process)
    (hurl : config.URL ≠ "") (hdrv : config.Driver ≠ "") :
    (config.Extensions ≠ "" → w.drivers.lookup "sqlite3_extended" = none →
      ∃ rest : List Event,
        (NewConnection sqlx config w).1.trace =
          w.trace ++ Event.sqlRegister "sqlite3_extended" (splitExtensions config.Extensions) ::
            Event.sqlxConnect "sqlite3_extended" config.URL :: rest ∧
        registeredNames rest = [] ∧ openedDrivers rest = [] ∧
        ("sqlite3_extended" = config.Driver ++ "_extended" ↔ config.Driver = "sqlite3") ∧
        (config.Driver ≠ "sqlite3_extended" → "sqlite3_extended" ≠ config.Driver)) ∧
    (config.Extensions = "" →
      ∃ rest : List Event,
        (NewConnection sqlx config w).1.trace =
          w.trace ++ Event.sqlxConnect config.Driver config.URL :: rest ∧
        registeredNames rest = [] ∧ openedDrivers rest = []) := by
  constructor
  · intro hext hfree
    have hne := splitExtensions_ne_nil config.Extensions hext
    have hlen : ¬ (splitExtensions config.Extensions).length = 0 := by
      intro h0; exact hne (List.length_eq_zero.mp h0)
    have hreg : register "sqlite3_extended" (splitExtensions config.Extensions) w =
        ({ drivers := w.drivers ++
              [("sqlite3_extended", { extensionPaths := splitExtensions config.Extensions })],
           trace := w.trace ++
              [Event.sqlRegister "sqlite3_extended" (splitExtensions config.Extensions)] },
          Res.ok none) := by
      simp [register, hlen, Once.Do, sqlRegister, hfree]
    obtain ⟨rest, h1, h2, h3⟩ := NewConnection_connect_trace sqlx "sqlite3_extended" config.URL
      { drivers := w.drivers ++
          [("sqlite3_extended", { extensionPaths := splitExtensions config.Extensions })],
        trace := w.trace ++
          [Event.sqlRegister "sqlite3_extended" (splitExtensions config.Extensions)] }
    refine ⟨rest, ?_, h2, h3, ?_, fun h => h.symm⟩
    · simp only [NewConnection, hurl, hdrv, hext, if_false, ne_eq, not_false_eq_true, if_true,
        hreg]
      rw [h1]; simp
    · constructor
      · intro h
        have h1 := congrArg String.data h
        rw [String.data_append] at h1
        apply String.ext
        have h2 : ("sqlite3_extended" : String).data = "sqlite3".data ++ "_extended".data := rfl
        rw [h2] at h1
        exact (List.append_cancel_right h1).symm
      · intro h; rw [h]; rfl
  · intro hext
    obtain ⟨rest, h1, h2, h3⟩ := NewConnection_connect_trace sqlx config.Driver config.URL w
    exact ⟨rest, by simp [NewConnection, hurl, hdrv, hext, h1], h2, h3⟩

/-- Witness of C6 amended: the driver `sqlite3` with one extension, in a
process that has only the base driver. -/
theorem NewConnection_driver_name_witness :
    ∃ rest : List Event,
      (NewConnection sampleSqlx
          { URL := "file:test.db", Driver := "sqlite3", Extensions := "uuid.so" }
          freshProcess).1.trace =
        freshProcess.trace ++ Event.sqlRegister "sqlite3_extended" (splitExtensions "uuid.so") ::
          Event.sqlxConnect "sqlite3_extended" "file:test.db" :: rest ∧
      registeredNames rest = [] ∧ openedDrivers rest = [] ∧
      ("sqlite3_extended" = "sqlite3" ++ "_extended" ↔ "sqlite3" = "sqlite3") ∧
      ("sqlite3" ≠ "sqlite3_extended" → "sqlite3_extended" ≠ "sqlite3") :=
  (NewConnection_driver_name sampleSqlx
    { URL := "file:test.db", Driver := "sqlite3", Extensions := "uuid.so" } freshProcess
    (by decide) (by decide)).1 (by decide) (by decide)

/-- When `sqlx.Connect` fails with `e`, the error of `NewConnection` carries the
text of `e` after the open context and unwraps to nothing; when the ping fails
with `e`, it carries the ping context and unwraps to `e`. -/
theorem NewConnection_connect_errors (sqlx : Sqlx) (driver databaseUrl : String) (w : Process) :
    (∀ e, sqlx.Connect w.drivers driver databaseUrl = Except.error e →
      (NewConnection.connect sqlx driver databaseUrl w).2 =
        Res.ok (none, some (GoError.leaf ("unable to connect to datastore: " ++ e.Error)))) ∧
    (∀ dbc e, sqlx.Connect w.drivers driver databaseUrl = Except.ok dbc → dbc.Ping = some e →
      (NewConnection.connect sqlx driver databaseUrl w).2 =
        Res.ok (none, some (GoError.wrap
          ("failed to ping database after connecting: " ++ e.Error) e))) := by
  constructor
  · intro e h
    simp [NewConnection.connect, h, errorfV, String.append_assoc]
  · intro dbc e h hp
    simp [NewConnection.connect, h, hp, errorfW, String.append_assoc]

/-- C10, on the code: for a valid configuration whose open step fails with the
driver error `unable to open database file`, `NewConnection` returns a nil
connection and an error that has the text of the driver error but does not
wrap it: it unwraps to nothing and the driver error is not in its chain. When
the ping fails instead, the error returned does unwrap to the driver error,
and the two context texts differ. -/
theorem NewConnection_open_failure_not_wrapped :
    (NewConnection failingSqlx { URL := "file:test.db", Driver := "sqlite3", Extensions := "" }
        freshProcess).2 =
      Res.ok (none, some (GoError.leaf
        "unable to connect to datastore: unable to open database file")) ∧
    (GoError.leaf "unable to connect to datastore: unable to open database file").Unwrap = none ∧
    errorsNew "unable to open database file" ∉
      (GoError.leaf "unable to connect to datastore: unable to open database file").chain ∧
    (NewConnection unhealthySqlx { URL := "file:test.db", Driver := "sqlite3", Extensions := "" }
        freshProcess).2 =
      Res.ok (none, some (GoError.wrap
        "failed to ping database after connecting: database is locked"
        (errorsNew "database is locked"))) ∧
    (GoError.wrap "failed to ping database after connecting: database is locked"
        (errorsNew "database is locked")).Unwrap = some (errorsNew "database is locked") := by
  refine ⟨rfl, rfl, by decide, rfl, rfl⟩

/-! ## The methods of `connection` -/

/-- The four guarded methods return the not-connected error on a nil
connection and on a connection whose handle is nil. -/
theorem guarded_methods_not_connected (sqlx : Sqlx) (dest : GoAny) (query : String)
    (args : GoAny) (c : Option connection) (h : c = none ∨ c = some { db := none }) :
    connection.Execute c query args = Res.ok (none, some (errorsNew errMsgNotConnected)) ∧
    connection.Query c query args = Res.ok (none, some (errorsNew errMsgNotConnected)) ∧
    connection.Get c dest query args = Res.ok (some (errorsNew errMsgNotConnected)) ∧
    connection.Select sqlx c dest query args = Res.ok (some (errorsNew errMsgNotConnected)) := by
  rcases h with h | h <;> subst h <;> exact ⟨rfl, rfl, rfl, rfl⟩

/-- C3, on the code: `Ping`, `Close` and `BeginTx` have no guard. On a nil
connection and on a connection whose handle is nil each of them dereferences
nil and panics, where the claim has them return the not-connected error. -/
theorem unguarded_methods_panic :
    connection.Ping none = Res.panic nilDeref ∧
    connection.Close none = Res.panic nilDeref ∧
    connection.BeginTx none = Res.panic nilDeref ∧
    connection.Ping (some { db := none }) = Res.panic nilDeref ∧
    connection.Close (some { db := none }) = Res.panic nilDeref ∧
    connection.BeginTx (some { db := none }) = Res.panic nilDeref ∧
    connection.Ping none ≠ Res.ok (some (errorsNew errMsgNotConnected)) :=
  ⟨rfl, rfl, rfl, rfl, rfl, rfl, by decide⟩

/-- On a connected connection, `Select` with a `[]any` or any other non-map
`args` calls the handle with the rebound query and no argument. -/
theorem Select_non_map (sqlx : Sqlx) (db : DB) (dest : GoAny) (query : String) :
    (∀ elems, connection.Select sqlx (some { db := some db }) dest query (GoAny.slice elems) =
      Res.ok (db.Select dest (db.Rebind query) [])) ∧
    (∀ v, connection.Select sqlx (some { db := some db }) dest query (GoAny.scalar v) =
      Res.ok (db.Select dest (db.Rebind query) [])) :=
  ⟨fun _ => rfl, fun _ => rfl⟩

/-- C4, on the code: with the one positional value 1 for the one placeholder
of the query, `Select` calls the handle with no argument at all. The handle,
which accepts the query with that value, answers the call `Select` makes with
an argument-count error. -/
theorem Select_drops_positional_args :
    connection.Select sampleSqlx (some { db := some sampleDB }) (GoAny.slice [])
        "SELECT * FROM t WHERE id = ?" (GoAny.slice [Scalar.int 1]) =
      Res.ok (sampleDB.Select (GoAny.slice [])
        (sampleDB.Rebind "SELECT * FROM t WHERE id = ?") []) ∧
    connection.Select sampleSqlx (some { db := some sampleDB }) (GoAny.slice [])
        "SELECT * FROM t WHERE id = ?" (GoAny.slice [Scalar.int 1]) =
      Res.ok (some (errorsNew "sql: expected 1 arguments, got 0")) ∧
    sampleDB.Select (GoAny.slice []) (sampleDB.Rebind "SELECT * FROM t WHERE id = ?")
        [Scalar.int 1] = none := by
  decide

/-! ## `Get` on a connection and in a transaction -/

/-- With the same rebind and prepare behaviour, the two `Get` methods succeed
together, and where `transaction.Get` returns the error `e` as it came,
`connection.Get` returns `e` wrapped in one of its two contexts. -/
theorem Get_connection_wraps_transaction (db : DB) (tx : Tx) (dest : GoAny) (query : String)
    (args : GoAny) (hR : db.Rebind = tx.Rebind) (hP : db.PrepareNamed = tx.PrepareNamed) :
    (transaction.Get (some { tx := some tx }) dest query args = Res.ok none ↔
      connection.Get (some { db := some db }) dest query args = Res.ok none) ∧
    (∀ e, transaction.Get (some { tx := some tx }) dest query args = Res.ok (some e) →
      connection.Get (some { db := some db }) dest query args =
          Res.ok (some (errorfW "failed to prepare named statement" e)) ∨
        connection.Get (some { db := some db }) dest query args =
          Res.ok (some (errorfW "failed to execute get statement" e))) := by
  simp only [transaction.Get, connection.Get, hR, hP]
  cases tx.PrepareNamed (tx.Rebind query) with
  | error err => simp
  | ok stmt =>
    cases hg : stmt.Get dest args with
    | none => simp [hg]
    | some err => simp [hg]

/-- C9, on the code: with a handle and a transaction that behave alike
(statements prepare, the single-row get finds no row), `connection.Get` returns
the driver error wrapped with the get context, and `transaction.Get` returns the
bare driver error: the two results differ. -/
theorem transaction_Get_not_wrapped :
    sampleDB.Rebind "SELECT * FROM t WHERE id = :id" =
      sampleTx.Rebind "SELECT * FROM t WHERE id = :id" ∧
    connection.Get (some { db := some sampleDB }) (GoAny.slice [])
        "SELECT * FROM t WHERE id = :id" (GoAny.strMap [("id", Scalar.int 1)]) =
      Res.ok (some (GoError.wrap "failed to execute get statement: sql: no rows in result set"
        ErrNoRows)) ∧
    transaction.Get (some { tx := some sampleTx }) (GoAny.slice [])
        "SELECT * FROM t WHERE id = :id" (GoAny.strMap [("id", Scalar.int 1)]) =
      Res.ok (some ErrNoRows) ∧
    transaction.Get (some { tx := some sampleTx }) (GoAny.slice [])
        "SELECT * FROM t WHERE id = :id" (GoAny.strMap [("id", Scalar.int 1)]) ≠
      connection.Get (some { db := some sampleDB }) (GoAny.slice [])
        "SELECT * FROM t WHERE id = :id" (GoAny.strMap [("id", Scalar.int 1)]) := by
  decide

end Sqlite
